import Mathlib

/-!
Verification of the `bar-config` library core: a shallow embedding of the
data model and operations in `src/bar.rs`, `src/config.rs`,
`src/components/mod.rs`, `src/components/clock.rs` and
`src/components/undynamic.rs`, together with theorems settling the frozen
claims about the specification.

Modelling conventions:
* Rust `u8`/`u64`/`usize` integers are `Nat` (with `Fin 256` where the
  `u8` range itself matters, as in `Color`), `i8` is `Int`.
* Fallible Rust code returning `Result` is `Except String`, and a panic
  (`unwrap` failure or slice-boundary panic) is the `none` of an outer
  `Option` layer.
* A component's stateful `update(&mut self) -> bool` and
  `notify(&mut self, Event) -> bool` methods are embedded as pure result
  functions of a per-component call counter (`updateFn`/`notifyFn` applied
  to `updateTicks`/`notifyTicks`), the standard embedding of an arbitrary
  stateful boolean method.  `text()` (wall-clock I/O) and the tokio timer
  streams are outside the embedding; the background worker's forwarding of
  raw trigger IDs into the channel is modelled adversarially, as an
  arbitrary list of queued IDs, which over-approximates every real trigger
  interleaving.
* Rust strings are lists of Unicode scalar values (`List Char`), with the
  UTF-8 byte length and byte-indexed slicing modelled explicitly where the
  source indexes by bytes.
-/

set_option maxHeartbeats 1000000
set_option maxRecDepth 10000

namespace BarConfig

/-- Unique component identifier; `ComponentID(usize)` in
`src/components/mod.rs`. -/
structure ComponentID where
  val : Nat
deriving DecidableEq

/-- A point on the screen (`src/event.rs`, `Point { x: u32, y: u32 }`). -/
structure Point where
  x : Nat
  y : Nat
deriving DecidableEq

/-- Mouse buttons (`src/event.rs`). -/
inductive MouseButton where
  | left
  | center
  | right
  | wheelUp
  | wheelDown
deriving DecidableEq

/-- Mouse button states (`src/event.rs`). -/
inductive MouseButtonState where
  | pressed
  | released
deriving DecidableEq

/-- Exact position of a component on the screen (`src/event.rs`). -/
structure ComponentPosition where
  compId : ComponentID
  minX : Nat
  maxX : Nat
  minY : Nat
  maxY : Nat
deriving DecidableEq

/-- Frontend events fanned out to components (`src/event.rs`, `Event`). -/
inductive Event where
  | click (button : MouseButton) (state : MouseButtonState) (point : Point)
  | mouseMotion (point : Point)
  | positionChange (position : ComponentPosition)
deriving DecidableEq

/-- RGBA color; the four `u8` fields of `Color` in `src/config.rs`. -/
structure Color where
  r : Fin 256
  g : Fin 256
  b : Fin 256
  a : Fin 256
deriving DecidableEq

/-- Number of bytes of the UTF-8 encoding of a Unicode scalar value
(Rust `char::len_utf8`); `str::len` sums these. -/
def rustUtf8Size (c : Char) : Nat :=
  if c.toNat < 0x80 then 1
  else if c.toNat < 0x800 then 2
  else if c.toNat < 0x10000 then 3
  else 4

/-- Byte length of a Rust string (`str::len`). -/
def utf8Len (s : List Char) : Nat :=
  (s.map rustUtf8Size).sum

/-- Drop the first `n` BYTES of a string; `none` models the Rust panic
when `n` is not a character boundary or is out of range. -/
def dropBytes : List Char → Nat → Option (List Char)
  | s, 0 => some s
  | [], _ + 1 => none
  | c :: cs, n + 1 =>
    if rustUtf8Size c ≤ n + 1 then dropBytes cs (n + 1 - rustUtf8Size c) else none

/-- Take the first `n` BYTES of a string; `none` models the Rust panic
when `n` is not a character boundary or is out of range. -/
def takeBytes : List Char → Nat → Option (List Char)
  | _, 0 => some []
  | [], _ + 1 => none
  | c :: cs, n + 1 =>
    if rustUtf8Size c ≤ n + 1 then
      (takeBytes cs (n + 1 - rustUtf8Size c)).map (c :: ·)
    else none

/-- The byte-indexed slice `&string[a..b]` of a Rust string; `none` models
the slice panic on a non-boundary index. -/
def sliceBytes (s : List Char) (a b : Nat) : Option (List Char) :=
  (dropBytes s a).bind (fun t => takeBytes t (b - a))

/-- Value of a single hexadecimal digit (Rust `char::to_digit(16)`, as
used by `from_str_radix`). -/
def hexDigitVal (c : Char) : Option Nat :=
  if '0' ≤ c ∧ c ≤ '9' then some (c.toNat - 48)
  else if 'a' ≤ c ∧ c ≤ 'f' then some (c.toNat - 97 + 10)
  else if 'A' ≤ c ∧ c ≤ 'F' then some (c.toNat - 65 + 10)
  else none

/-- `u8::from_str_radix(s, 16)`: at least one digit, hexadecimal digits
only, error on overflow past 255.  (A leading sign cannot reach the call
sites in `Color::from_str`, whose inputs already passed the character
validation, so it is not modelled.) -/
def u8FromStrRadix16 (s : List Char) : Option (Fin 256) :=
  match s with
  | [] => none
  | _ :: _ =>
    s.foldl
      (fun acc c =>
        acc.bind fun n =>
          (hexDigitVal c).bind fun d =>
            if h : 16 * n.val + d < 256 then some ⟨16 * n.val + d, h⟩ else none)
      (some (0 : Fin 256))

/-- The per-character validation of `Color::from_str` in `src/config.rs`
(lines 184-192): the character of the UPPERCASED string is cast to `u8`
(truncating its code point, `c as u8`) and required to lie in the ASCII
range of `0`..`9` or `A`..`F`. -/
def hexCodeOk (c : Char) : Bool :=
  let code := c.toNat % 256
  !(code < 48 || 70 < code || (57 < code && code < 65))

/-- `Color::from_str` (`src/config.rs` lines 177-204), embedded
byte-faithfully.  The result is `some (.error _)` for a returned parse
error, `some (.ok _)` for success, and `none` for a panic (the `unwrap`
of a failed `from_str_radix`, which the validation above does not rule
out for non-ASCII input because of the `c as u8` truncation).
`Char.toUpper` stands for Rust's `char::to_uppercase`; the two agree on
ASCII and on characters that are their own uppercase (such as U+0130,
used in the counterexample below). -/
def Color.fromStr (s : List Char) : Option (Except String Color) :=
  if ¬s.head? = some '#' ∨ (utf8Len s ≠ 7 ∧ utf8Len s ≠ 9) then
    some (Except.error "colors need to follow the format #RRGGBB or #RRGGBBAA")
  else if ¬((s.map Char.toUpper).drop 1).all hexCodeOk then
    some (Except.error "hexadecimal color digits need to be within the range 0..=F")
  else
    ((sliceBytes s 1 3).bind u8FromStrRadix16).bind fun r =>
      ((sliceBytes s 3 5).bind u8FromStrRadix16).bind fun g =>
        ((sliceBytes s 5 7).bind u8FromStrRadix16).bind fun b =>
          (if utf8Len s = 9 then (sliceBytes s 7 9).bind u8FromStrRadix16
           else some (255 : Fin 256)).bind fun a =>
            some (Except.ok ⟨r, g, b, a⟩)

/-- Lowercase hexadecimal digit character for a value below 16, as
produced by Rust's `{:02x}` formatting. -/
def hexLowerDigit (n : Nat) : Char :=
  if n < 10 then Char.ofNat (48 + n) else Char.ofNat (87 + n)

/-- The two lowercase hexadecimal digits of a byte (`{:02x}`). -/
def byteToHex (n : Nat) : List Char :=
  [hexLowerDigit (n / 16), hexLowerDigit (n % 16)]

/-- `Color::to_string` (`src/config.rs` lines 208-212):
`format!("#{:02x}{:02x}{:02x}{:02x}", r, g, b, a)`. -/
def Color.toString (c : Color) : List Char :=
  '#' :: (byteToHex c.r.val ++ byteToHex c.g.val ++ byteToHex c.b.val ++ byteToHex c.a.val)

/-- Font descriptor (`src/config.rs`, `Font`). -/
structure Font where
  description : String
  size : Nat
deriving DecidableEq

/-- Monitor identification (`src/config.rs`, `Monitor`). -/
structure Monitor where
  name : String
  fallbackNames : List String
deriving DecidableEq

/-- Bar border (`src/config.rs`, `Border`). -/
structure Border where
  height : Nat
  color : Color
deriving DecidableEq

/-- Bar position (`src/config.rs`, `Position`). -/
inductive Position where
  | top
  | bottom
deriving DecidableEq

/-- Background of a component or the bar (`src/config.rs`, `Background`);
the image variant stores the canonicalized path. -/
inductive Background where
  | image (path : String)
  | color (color : Color)
deriving DecidableEq

/-- Per-component settings (`src/config.rs`, `ComponentSettings`): all
scalar fields optional, plus an ordered font list. -/
structure ComponentSettings where
  foreground : Option Color
  background : Option Background
  width : Option Nat
  padding : Option Nat
  offsetX : Option Int
  offsetY : Option Int
  fonts : List Font
  border : Option Border
deriving DecidableEq

/-- The all-absent settings record (serde `Default`). -/
def ComponentSettings.empty : ComponentSettings :=
  { foreground := none, background := none, width := none, padding := none,
    offsetX := none, offsetY := none, fonts := [], border := none }

/-- Keep a present optional field, otherwise substitute the default
(the per-field step of the fallback merge). -/
def orDefault {α : Type} (a default : Option α) : Option α :=
  match a with
  | some v => some v
  | none => default

/-- Modelled from the spec: `ComponentSettings::fallback`, invoked from
`Bar::load` (`src/bar.rs` line 123) but whose definition is not among the
source files (the `src/config.rs` present is an earlier variant without
it).  Following §3/§4.3 of the spec and the `component_fallbacks` test in
`tests/bar.rs`: every scalar field that is absent is filled from the
bar-wide default, a present field is never overwritten, and the font list
becomes the component's own fonts followed by the default fonts. -/
def ComponentSettings.fallback (s defaults : ComponentSettings) : ComponentSettings :=
  { foreground := orDefault s.foreground defaults.foreground
    background := orDefault s.background defaults.background
    width := orDefault s.width defaults.width
    padding := orDefault s.padding defaults.padding
    offsetX := orDefault s.offsetX defaults.offsetX
    offsetY := orDefault s.offsetY defaults.offsetY
    fonts := s.fonts ++ defaults.fonts
    border := orDefault s.border defaults.border }

/-- An untyped value of the external document format (`serde_fmt::Value`),
restricted to the shapes the variant-specific `Extra` deserializers
distinguish: an unsigned integer, a string, or anything else. -/
inductive RawValue where
  | num (n : Nat)
  | str (s : String)
  | other
deriving DecidableEq

/-- The variant-specific extra options of one component entry, as left
untyped by the external document parser: the `interval` key (read by
`Clock`) and the `text` key (read by `Undynamic`), each possibly absent.
Unknown keys are ignored by the serde `Extra` structs and not modelled. -/
structure RawExtra where
  interval : Option RawValue
  text : Option RawValue
deriving DecidableEq

/-- Extra options with every key absent. -/
def RawExtra.empty : RawExtra := { interval := none, text := none }

/-- One component entry of the configuration document, as consumed by
`Bar::load` and `impl From<ConfigComponent> for Component`
(`src/components/mod.rs` lines 216-223): a `name` selecting the variant
(serde default: the empty string), the common settings, and the untyped
variant-specific extras. -/
structure ConfigComponent where
  name : String
  settings : ComponentSettings
  extra : RawExtra
deriving DecidableEq

/-- The parsed configuration document as used by `Bar::load`
(`src/bar.rs` lines 106-129); field shapes follow that usage and §6 of
the spec, with external serde defaults already resolved.  The `monitors`
list is still subject to the in-repo `deserialize_monitors` check. -/
structure Config where
  height : Nat
  position : Position
  background : Background
  border : Option Border
  monitors : List Monitor
  defaults : ComponentSettings
  left : List ConfigComponent
  center : List ConfigComponent
  right : List ConfigComponent

/-- `deserialize_monitors` (`src/config.rs` lines 37-53): reject an empty
monitor list with the documented error. -/
def deserializeMonitors (monitors : List Monitor) : Except String (List Monitor) :=
  if monitors.isEmpty then Except.error "at least one monitor is required"
  else Except.ok monitors

/-- A component of the loaded bar, embedding the `ComponentTrait` object
(`src/components/mod.rs` lines 43-63).  The stateful `update()`/`notify()`
methods are embedded as result functions of per-component call counters;
`text()` and the trigger `stream()` (wall-clock I/O) are outside the
embedding. -/
structure Component where
  id : ComponentID
  settings : ComponentSettings
  updateFn : Nat → Bool
  notifyFn : Event → Nat → Bool
  updateTicks : Nat
  notifyTicks : Nat

/-- The default `update` of `ComponentTrait` (`src/components/mod.rs`
lines 56-58): always `false`. -/
def defaultUpdate : Nat → Bool := fun _ => false

/-- The default `notify` of `ComponentTrait` (`src/components/mod.rs`
lines 60-62): always `false`. -/
def defaultNotify : Event → Nat → Bool := fun _ _ => false

/-- Invoke `update()` once: the result for the current call count, and
the component with its counter advanced. -/
def Component.update (c : Component) : Bool × Component :=
  (c.updateFn c.updateTicks, { c with updateTicks := c.updateTicks + 1 })

/-- Invoke `notify(event)` once. -/
def Component.notify (c : Component) (e : Event) : Bool × Component :=
  (c.notifyFn e c.notifyTicks, { c with notifyTicks := c.notifyTicks + 1 })

/-- The typed deserialization of `Clock`'s `Extra { interval: Option<u64> }`
(`src/components/clock.rs` lines 27-30): absent or an unsigned integer
succeeds, any other value is a deserialization error. -/
def clockParseExtra (e : RawExtra) : Option (Option Nat) :=
  match e.interval with
  | none => some none
  | some (RawValue.num n) => some (some n)
  | some _ => none

/-- `Clock::create` (`src/components/clock.rs` lines 60-68).  The `Extra`
deserialization is `unwrap`ped in the source, so its failure is a panic:
the `none` of the result.  `update()` of a clock always returns `true`
(lines 51-53); `notify` is the trait default. -/
def Clock.create (cid : ComponentID) (settings : ComponentSettings) (extra : RawExtra) :
    Option Component :=
  (clockParseExtra extra).map fun _ =>
    { id := cid, settings := settings, updateFn := fun _ => true,
      notifyFn := defaultNotify, updateTicks := 0, notifyTicks := 0 }

/-- The typed deserialization of `Undynamic`'s
`Extra { #[serde(default)] text: String }` (`src/components/undynamic.rs`
lines 18-22): absent or a string succeeds, any other value fails. -/
def undynamicParseExtra (e : RawExtra) : Option String :=
  match e.text with
  | none => some ""
  | some (RawValue.str s) => some s
  | some _ => none

/-- `Undynamic::create` (`src/components/undynamic.rs` lines 38-46); the
`Extra` deserialization is `unwrap`ped, so its failure is a panic.
`update()` and `notify()` are the trait defaults (always `false`). -/
def Undynamic.create (cid : ComponentID) (settings : ComponentSettings) (extra : RawExtra) :
    Option Component :=
  (undynamicParseExtra extra).map fun _ =>
    { id := cid, settings := settings, updateFn := defaultUpdate,
      notifyFn := defaultNotify, updateTicks := 0, notifyTicks := 0 }

/-- `impl From<ConfigComponent> for Component`
(`src/components/mod.rs` lines 216-223): `name == "clock"` selects the
clock, anything else falls back to `Undynamic`. -/
def Component.fromConfig (cid : ComponentID) (c : ConfigComponent) : Option Component :=
  if c.name = "clock" then Clock.create cid c.settings c.extra
  else Undynamic.create cid c.settings c.extra

/-- The `convert` closure of `Bar::load` (`src/bar.rs` lines 119-126):
apply the settings fallback to each entry, then create the component,
threading the process-wide ID counter through the creations in order.
A panic in any creation (`none`) aborts the whole conversion. -/
def convertComponents (defaults : ComponentSettings) :
    List ConfigComponent → Nat → Option (List Component × Nat)
  | [], n => some ([], n)
  | c :: cs, n =>
    match Component.fromConfig ⟨n⟩ { c with settings := c.settings.fallback defaults } with
    | none => none
    | some comp =>
      (convertComponents defaults cs (n + 1)).map fun p => (comp :: p.1, p.2)

/-- General bar settings (`src/bar.rs`, `General`). -/
structure General where
  height : Nat
  position : Position
  background : Background
  border : Option Border
  monitors : List Monitor

/-- The bar state (`src/bar.rs`, `Bar`): general settings, the three
ordered component lists, and the lazily created channel pair.  The
channel is modelled as the FIFO list of currently queued component IDs
(`none` while the update pipeline has not been started). -/
structure Bar where
  general : General
  left : List Component
  center : List Component
  right : List Component
  events : Option (List ComponentID)

/-- All components in the concatenation order of
`Bar::components`/`Bar::components_mut` (`src/bar.rs` lines 374-388):
left, then center, then right. -/
def Bar.componentsList (bar : Bar) : List Component :=
  bar.left ++ bar.center ++ bar.right

/-- `Bar::load` (`src/bar.rs` lines 102-138), starting from the parsed
document (document syntax is the external parser's concern): the
`deserialize_monitors` validation surfaces as the invalid-data error,
then the three component lists are converted with settings fallbacks
applied.  `none` is a panic escaping `load` (an `unwrap` in a component
constructor). -/
def Bar.load (nextId : Nat) (doc : Config) : Option (Except String Bar) :=
  match deserializeMonitors doc.monitors with
  | Except.error e => some (Except.error e)
  | Except.ok monitors =>
    (convertComponents doc.defaults doc.left nextId).bind fun pl =>
      (convertComponents doc.defaults doc.center pl.2).bind fun pc =>
        (convertComponents doc.defaults doc.right pc.2).bind fun pr =>
          some (Except.ok
            { general :=
                { height := doc.height, position := doc.position,
                  background := doc.background, border := doc.border,
                  monitors := monitors },
              left := pl.1, center := pc.1, right := pr.1, events := none })

/-- Search one list for the first component with the given ID and invoke
`update()` on it; `none` when no component matches (part of
`Bar::update_component`, `src/bar.rs` lines 226-233). -/
def updateFirst : List Component → ComponentID → Option (Bool × List Component)
  | [], _ => none
  | c :: cs, cid =>
    if c.id = cid then
      let r := c.update
      some (r.1, r.2 :: cs)
    else
      (updateFirst cs cid).map fun p => (p.1, c :: p.2)

/-- `Bar::update_component` (`src/bar.rs` lines 226-233): invoke
`update()` on the first component with the matching ID in the
left-center-right iteration order, returning its result; `false` when no
component matches. -/
def Bar.updateComponent (bar : Bar) (cid : ComponentID) : Bool × Bar :=
  match updateFirst bar.left cid with
  | some (b, l) => (b, { bar with left := l })
  | none =>
    match updateFirst bar.center cid with
    | some (b, cn) => (b, { bar with center := cn })
    | none =>
      match updateFirst bar.right cid with
      | some (b, r) => (b, { bar with right := r })
      | none => (false, bar)

/-- The shared drain loop of `Bar::recv` and `Bar::try_recv`
(`src/bar.rs` lines 170-175 and 212-222): take queued IDs in FIFO order,
invoke `update_component` on each, and stop at the first one whose
`update()` returned true; IDs for which it returned false are dropped.
The remaining queue is stored back as the channel content. -/
def drainLoop : Bar → List ComponentID → Option ComponentID × Bar
  | bar, [] => (none, { bar with events := some [] })
  | bar, cid :: rest =>
    match bar.updateComponent cid with
    | (true, bar1) => (some cid, { bar1 with events := some rest })
    | (false, bar1) => drainLoop bar1 rest

/-- The channel content a poll call operates on: the existing queue when
the pipeline is already started, otherwise the queue created by
`start_loop` (`src/bar.rs` lines 434-456), whose background worker may
already have forwarded raw trigger IDs — modelled as the arbitrary
`start` list. -/
def Bar.startQueue (bar : Bar) (start : List ComponentID) : List ComponentID :=
  match bar.events with
  | none => start
  | some q => q

/-- `Bar::try_recv` (`src/bar.rs` lines 206-223): start the pipeline if
necessary, then drain queued IDs until one whose `update()` returns true
is found (`some`), or the queue is empty (`none`, without blocking). -/
def Bar.tryRecv (bar : Bar) (start : List ComponentID) : Option ComponentID × Bar :=
  drainLoop bar (bar.startQueue start)

/-- `Bar::recv` (`src/bar.rs` lines 164-176): the same drain loop, but an
exhausted queue means the call blocks until a further delivery — the
`none` result carries no returned ID (`recv` never returns a
no-component-changed result). -/
def Bar.recv (bar : Bar) (start : List ComponentID) : Option (ComponentID × Bar) :=
  match bar.tryRecv start with
  | (some cid, bar1) => some (cid, bar1)
  | (none, _) => none

/-- The fan-out loop of `Bar::notify` over one component list
(`src/bar.rs` lines 418-424): invoke `notify(event)` on every component
in order, collecting the IDs of those that returned true, in iteration
order. -/
def notifyList (e : Event) : List Component → List Component × List ComponentID
  | [] => ([], [])
  | c :: cs =>
    let r := c.notify e
    let rest := notifyList e cs
    (r.2 :: rest.1, if r.1 then c.id :: rest.2 else rest.2)

/-- `Bar::notify` (`src/bar.rs` lines 417-431): notify every component
across the three lists, then — only if the channel pair exists — push
each collected dirty ID onto the channel consumed by the pollers; with
no channel the dirty IDs are dropped. -/
def Bar.notify (bar : Bar) (e : Event) : Bar :=
  let l := notifyList e bar.left
  let cn := notifyList e bar.center
  let r := notifyList e bar.right
  { bar with
    left := l.1, center := cn.1, right := r.1,
    events :=
      match bar.events with
      | some q => some (q ++ (l.2 ++ cn.2 ++ r.2))
      | none => none }

/-- One observable action on a `Bar`.  `workerPush` is the background
worker forwarding a raw trigger ID into the channel (`src/bar.rs` lines
444-453), modelled adversarially for an arbitrary ID — an
over-approximation of every real trigger stream.  `doRecv` and
`doTryRecv` carry the queue content `start_loop` would create if this
call is the one that starts the pipeline. -/
inductive Action where
  | doRecv (start : List ComponentID)
  | doTryRecv (start : List ComponentID)
  | doNotify (e : Event)
  | workerPush (cid : ComponentID)

/-- One step of an execution: the successor state and the component ID
delivered to the caller, if any.  On the finite currently-queued content
a blocking `recv` and a `try_recv` perform the same drain; they differ
only in blocking at emptiness, which delivers no ID either way. -/
def Bar.step (bar : Bar) : Action → Bar × Option ComponentID
  | Action.doRecv start =>
    let r := bar.tryRecv start
    (r.2, r.1)
  | Action.doTryRecv start =>
    let r := bar.tryRecv start
    (r.2, r.1)
  | Action.doNotify e => (bar.notify e, none)
  | Action.workerPush cid =>
    (match bar.events with
     | some q => { bar with events := some (q ++ [cid]) }
     | none => bar, none)

/-- Run a sequence of actions, collecting every ID delivered by a poll
call, in order. -/
def Bar.run : Bar → List Action → Bar × List ComponentID
  | bar, [] => (bar, [])
  | bar, a :: rest =>
    let s := bar.step a
    let r := s.1.run rest
    (r.1, match s.2 with
      | some cid => cid :: r.2
      | none => r.2)

/-! ## Specification-side characterizations

Definitions below restate the claims' vocabulary (valid color shapes,
merged settings, dirty IDs) independently of the embedded code, for the
theorems to relate the two. -/

/-- An ASCII hexadecimal digit, the claims' notion of a valid color
digit (case-insensitive). -/
def isAsciiHexDigit (c : Char) : Bool :=
  ('0' ≤ c && c ≤ '9') || ('a' ≤ c && c ≤ 'f') || ('A' ≤ c && c ≤ 'F')

/-- A lowercase ASCII hexadecimal digit. -/
def isLowerHexDigit (c : Char) : Bool :=
  ('0' ≤ c && c ≤ '9') || ('a' ≤ c && c ≤ 'f')

/-- The claims' valid color string shape: `#` followed by exactly six or
eight hexadecimal digits. -/
def specColorShape (s : List Char) : Bool :=
  s.head? == some '#' && (s.drop 1).all isAsciiHexDigit &&
    ((s.drop 1).length == 6 || (s.drop 1).length == 8)

/-- The claims' per-field fallback contract for one scalar settings
field: an explicitly set value is kept regardless of the default, an
absent one receives the default. -/
def ScalarMerged {α : Type} (eff own default : Option α) : Prop :=
  (∀ v, own = some v → eff = some v) ∧ (own = none → eff = default)

/-- The claims' contract for a fully merged settings record: every
scalar field obeys `ScalarMerged` and the font list is the component's
own fonts followed by the default fonts, orders preserved. -/
def MergedFrom (eff own default : ComponentSettings) : Prop :=
  ScalarMerged eff.foreground own.foreground default.foreground ∧
  ScalarMerged eff.background own.background default.background ∧
  ScalarMerged eff.width own.width default.width ∧
  ScalarMerged eff.padding own.padding default.padding ∧
  ScalarMerged eff.offsetX own.offsetX default.offsetX ∧
  ScalarMerged eff.offsetY own.offsetY default.offsetY ∧
  ScalarMerged eff.border own.border default.border ∧
  eff.fonts = own.fonts ++ default.fonts

/-- The IDs of the components that report dirty for an event, in the
left-center-right iteration order, each judged at its current notify
call count. -/
def dirtyIDs (bar : Bar) (e : Event) : List ComponentID :=
  (bar.componentsList.filter fun c => c.notifyFn e c.notifyTicks).map fun c => c.id

/-- The claims' notion of a component entry whose variant-specific extra
fields are well-typed: a clock's `interval` is absent or a number, any
other component's `text` is absent or a string. -/
def ConfigComponent.extraValid (c : ConfigComponent) : Bool :=
  if c.name = "clock" then
    match c.extra.interval with
    | none => true
    | some (RawValue.num _) => true
    | some _ => false
  else
    match c.extra.text with
    | none => true
    | some (RawValue.str _) => true
    | some _ => false

/-! ## C3: Color parsing -/

/-- The string `"#İİİ"`: `#` followed by three U+0130 characters (LATIN
CAPITAL LETTER I WITH DOT ABOVE, its own uppercase, two UTF-8 bytes, so
the byte length is 7).  Its code point truncated to `u8` is 48, the
digit `0`, so the `c as u8` validation of `Color::from_str` wrongly
accepts it. -/
def colorPanicInput : List Char :=
  '#' :: List.replicate 3 (Char.ofNat 304)

/-- C3: the claim says every input that is not `#RRGGBB`/`#RRGGBBAA`
with valid hex digits makes Color parsing fail with a parse error.  The
code does not: on `"#İİİ"`, which is not of the valid shape, the
validation loop of `Color::from_str` accepts the truncated code points
and the subsequent `u8::from_str_radix(&string[1..3], 16).unwrap()`
panics instead of returning a parse error. -/
theorem color_from_str_panics_on_truncated_unicode :
    specColorShape colorPanicInput = false ∧
      (Color.fromStr colorPanicInput).isNone = true := by
  constructor <;> rfl

/-! ## C7: invalid variant-specific extra fields -/

/-- A configuration document with one monitor and one clock component
whose `interval` is a string rather than a number. -/
def clockBadIntervalDoc : Config :=
  { height := 30, position := Position.bottom,
    background := Background.color ⟨0, 0, 0, 255⟩, border := none,
    monitors := [⟨"DVI-1", []⟩], defaults := ComponentSettings.empty,
    left := [{ name := "clock", settings := ComponentSettings.empty,
               extra := { interval := some (RawValue.str "abc"), text := none } }],
    center := [], right := [] }

/-- C7: the claim (and `Bar::load`'s own documentation) says a
configuration with invalid variant-specific fields makes `load` return
an invalid-data error.  The code instead panics: `Clock::create` calls
`Extra::deserialize(extra).unwrap()` (`src/components/clock.rs` line
65), so a clock entry with a non-numeric `interval` diverges out of
`Bar::load` (`none` here) rather than producing the documented error. -/
theorem load_panics_on_invalid_clock_interval :
    (Bar.load 0 clockBadIntervalDoc).isNone = true ∧
      (clockBadIntervalDoc.left.all ConfigComponent.extraValid) = false := by
  constructor <;> rfl

/-! ## C6: idempotence of the fallback merge -/

/-- Settings with one component-specific font and nothing else. -/
def settingsOwnFont : ComponentSettings :=
  { ComponentSettings.empty with fonts := [⟨"primary", 9⟩] }

/-- Defaults with a width and one fallback font (the shape of the
`component_fallbacks` test in `tests/bar.rs`). -/
def defaultsWithFont : ComponentSettings :=
  { ComponentSettings.empty with width := some 100, fonts := [⟨"font", 3⟩] }

/-- C6 counterexample: re-applying the fallback merge with the same
defaults is NOT the identity on an already-merged record whenever the
default font list is non-empty — the font concatenation appends the
default fonts a second time. -/
theorem fallback_remerge_duplicates_fonts :
    ComponentSettings.fallback
        (ComponentSettings.fallback settingsOwnFont defaultsWithFont) defaultsWithFont ≠
      ComponentSettings.fallback settingsOwnFont defaultsWithFont := by
  intro h
  have hf := congrArg ComponentSettings.fonts h
  simp [ComponentSettings.fallback, settingsOwnFont, defaultsWithFont,
    ComponentSettings.empty] at hf

/-- Re-merging keeps every already-present scalar field. -/
theorem orDefault_remerge {α : Type} (a b : Option α) :
    orDefault (orDefault a b) b = orDefault a b := by
  cases a with
  | some v => rfl
  | none => cases b <;> rfl

/-- C6 (amended): the fallback merge is idempotent on every scalar
settings field, but not on the font list: re-merging with the same
defaults appends the default fonts a second time, so full idempotence
holds exactly when the default font list is empty. -/
theorem fallback_idempotent_except_fonts (s d : ComponentSettings) :
    ((s.fallback d).fallback d).foreground = (s.fallback d).foreground ∧
    ((s.fallback d).fallback d).background = (s.fallback d).background ∧
    ((s.fallback d).fallback d).width = (s.fallback d).width ∧
    ((s.fallback d).fallback d).padding = (s.fallback d).padding ∧
    ((s.fallback d).fallback d).offsetX = (s.fallback d).offsetX ∧
    ((s.fallback d).fallback d).offsetY = (s.fallback d).offsetY ∧
    ((s.fallback d).fallback d).border = (s.fallback d).border ∧
    ((s.fallback d).fallback d).fonts = s.fonts ++ d.fonts ++ d.fonts ∧
    (d.fonts = [] → (s.fallback d).fallback d = s.fallback d) := by
  refine ⟨?_, ?_, ?_, ?_, ?_, ?_, ?_, ?_, ?_⟩
  · exact orDefault_remerge s.foreground d.foreground
  · exact orDefault_remerge s.background d.background
  · exact orDefault_remerge s.width d.width
  · exact orDefault_remerge s.padding d.padding
  · exact orDefault_remerge s.offsetX d.offsetX
  · exact orDefault_remerge s.offsetY d.offsetY
  · exact orDefault_remerge s.border d.border
  · rfl
  · intro hd
    simp [ComponentSettings.fallback, orDefault_remerge, hd]

/-- Witness for the amended C6 theorem at the counterexample's records
(with the empty-default-fonts case instantiated at empty defaults). -/
theorem fallback_idempotent_except_fonts_witness :
    ((settingsOwnFont.fallback defaultsWithFont).fallback defaultsWithFont).width =
        (settingsOwnFont.fallback defaultsWithFont).width ∧
      (settingsOwnFont.fallback ComponentSettings.empty).fallback ComponentSettings.empty =
        settingsOwnFont.fallback ComponentSettings.empty :=
  ⟨(fallback_idempotent_except_fonts settingsOwnFont defaultsWithFont).2.2.1,
    (fallback_idempotent_except_fonts settingsOwnFont ComponentSettings.empty).2.2.2.2.2.2.2.2
      rfl⟩

/-! ## C2: the notify fan-out -/

/-- The component states after one `notify` fan-out over a list: every
component, in place, with its notify call counter advanced once. -/
theorem notifyList_fst (e : Event) (l : List Component) :
    (notifyList e l).1 = l.map fun c => { c with notifyTicks := c.notifyTicks + 1 } := by
  induction l with
  | nil => rfl
  | cons c cs ih => simp [notifyList, Component.notify, ih]

/-- The IDs collected by one `notify` fan-out over a list are exactly
the IDs of the components whose `notify(event)` returned true, in
iteration order. -/
theorem notifyList_snd (e : Event) (l : List Component) :
    (notifyList e l).2 =
      (l.filter fun c => c.notifyFn e c.notifyTicks).map fun c => c.id := by
  induction l with
  | nil => rfl
  | cons c cs ih =>
    simp only [notifyList, Component.notify, List.filter_cons]
    rcases Bool.eq_false_or_eq_true (c.notifyFn e c.notifyTicks) with h | h <;>
      simp [h, ih]

/-- C2: `Bar::notify(event)` invokes `notify(event)` on every component
of the left, center and right lists exactly once; when the update
pipeline has been started (the channel exists) the IDs of exactly the
components whose `notify` returned true are pushed onto the pollers'
channel, after any queued IDs, in iteration order, and when the pipeline
has not been started the channel stays absent, so the dirty IDs are
discarded and leave no trace from which they could later be
delivered. -/
theorem notify_fans_out_and_queues_dirty (bar : Bar) (e : Event) :
    (bar.notify e).left =
        (bar.left.map fun c => { c with notifyTicks := c.notifyTicks + 1 }) ∧
    (bar.notify e).center =
        (bar.center.map fun c => { c with notifyTicks := c.notifyTicks + 1 }) ∧
    (bar.notify e).right =
        (bar.right.map fun c => { c with notifyTicks := c.notifyTicks + 1 }) ∧
    (bar.notify e).events =
        (match bar.events with
         | some q => some (q ++ dirtyIDs bar e)
         | none => none) := by
  refine ⟨notifyList_fst e bar.left, notifyList_fst e bar.center,
    notifyList_fst e bar.right, ?_⟩
  show (match bar.events with
    | some q =>
      some (q ++ ((notifyList e bar.left).2 ++ (notifyList e bar.center).2 ++
        (notifyList e bar.right).2))
    | none => none) = _
  have hd : (notifyList e bar.left).2 ++ (notifyList e bar.center).2 ++
      (notifyList e bar.right).2 = dirtyIDs bar e := by
    simp [notifyList_snd, dirtyIDs, Bar.componentsList, List.filter_append]
  rw [hd]

/-! ## The update/drain machinery shared by C1, C8 and C9 -/

/-- Two component states with the same identity, settings and behavior
functions; only the call counters may differ.  Every operation of the
bar preserves this relation between a component's old and new state. -/
def SameBehavior (c c' : Component) : Prop :=
  c'.id = c.id ∧ c'.settings = c.settings ∧ c'.updateFn = c.updateFn ∧
    c'.notifyFn = c.notifyFn

theorem sameBehavior_refl (c : Component) : SameBehavior c c :=
  ⟨rfl, rfl, rfl, rfl⟩

theorem sameBehavior_trans {a b c : Component} (h1 : SameBehavior a b)
    (h2 : SameBehavior b c) : SameBehavior a c :=
  ⟨h2.1.trans h1.1, h2.2.1.trans h1.2.1, h2.2.2.1.trans h1.2.2.1,
    h2.2.2.2.trans h1.2.2.2⟩

/-- Every component state in the output list of `updateFirst` comes from
a component of the input list with the same identity and behavior. -/
theorem updateFirst_mem (cid : ComponentID) :
    ∀ (l : List Component) (b : Bool) (l' : List Component),
      updateFirst l cid = some (b, l') →
      ∀ c' ∈ l', ∃ c ∈ l, SameBehavior c c' := by
  intro l
  induction l with
  | nil => intro b l' h; simp [updateFirst] at h
  | cons c cs ih =>
    intro b l' h c' hc'
    by_cases hid : c.id = cid
    · simp only [updateFirst, if_pos hid, Component.update, Option.some.injEq,
        Prod.mk.injEq] at h
      rw [← h.2] at hc'
      rcases List.mem_cons.mp hc' with hceq | hcm
      · exact ⟨c, List.mem_cons_self c cs, by rw [hceq]; exact ⟨rfl, rfl, rfl, rfl⟩⟩
      · exact ⟨c', List.mem_cons_of_mem c hcm, sameBehavior_refl c'⟩
    · simp only [updateFirst, if_neg hid] at h
      cases hrec : updateFirst cs cid with
      | none => rw [hrec] at h; exact Option.noConfusion h
      | some p =>
        obtain ⟨b0, cs'⟩ := p
        rw [hrec] at h
        simp only [Option.map_some', Option.some.injEq, Prod.mk.injEq] at h
        rw [← h.2] at hc'
        rcases List.mem_cons.mp hc' with hceq | hcm
        · exact ⟨c, List.mem_cons_self c cs, by rw [hceq]; exact sameBehavior_refl c⟩
        · obtain ⟨c0, hc0, hs⟩ := ih b0 cs' hrec c' hcm
          exact ⟨c0, List.mem_cons_of_mem c hc0, hs⟩

/-- The boolean result of `updateFirst` is the `update()` result of the
first component carrying the requested ID, judged at its current update
call count. -/
theorem updateFirst_result (cid : ComponentID) :
    ∀ (l : List Component) (b : Bool) (l' : List Component),
      updateFirst l cid = some (b, l') →
      ∃ c ∈ l, c.id = cid ∧ b = c.updateFn c.updateTicks := by
  intro l
  induction l with
  | nil => intro b l' h; simp [updateFirst] at h
  | cons c cs ih =>
    intro b l' h
    by_cases hid : c.id = cid
    · simp only [updateFirst, if_pos hid, Component.update, Option.some.injEq,
        Prod.mk.injEq] at h
      exact ⟨c, List.mem_cons_self c cs, hid, h.1.symm⟩
    · simp only [updateFirst, if_neg hid] at h
      cases hrec : updateFirst cs cid with
      | none => rw [hrec] at h; exact Option.noConfusion h
      | some p =>
        obtain ⟨b0, cs'⟩ := p
        rw [hrec] at h
        simp only [Option.map_some', Option.some.injEq, Prod.mk.injEq] at h
        obtain ⟨c0, hc0, hcid, hb⟩ := ih b0 cs' hrec
        exact ⟨c0, List.mem_cons_of_mem c hc0, hcid, h.1.symm.trans hb⟩

/-- When `updateFirst` reports true, the output list contains the
updated component: it carries the requested ID, has been updated at
least once, and its latest `update()` call returned true. -/
theorem updateFirst_true (cid : ComponentID) :
    ∀ (l l' : List Component), updateFirst l cid = some (true, l') →
      ∃ c' ∈ l', c'.id = cid ∧ 0 < c'.updateTicks ∧
        c'.updateFn (c'.updateTicks - 1) = true := by
  intro l
  induction l with
  | nil => intro l' h; simp [updateFirst] at h
  | cons c cs ih =>
    intro l' h
    by_cases hid : c.id = cid
    · simp only [updateFirst, if_pos hid, Component.update, Option.some.injEq,
        Prod.mk.injEq] at h
      refine ⟨{ c with updateTicks := c.updateTicks + 1 }, ?_, hid, ?_, ?_⟩
      · rw [← h.2]; exact List.mem_cons_self _ _
      · exact Nat.succ_pos _
      · simpa using h.1
    · simp only [updateFirst, if_neg hid] at h
      cases hrec : updateFirst cs cid with
      | none => rw [hrec] at h; exact Option.noConfusion h
      | some p =>
        obtain ⟨b0, cs'⟩ := p
        rw [hrec] at h
        simp only [Option.map_some', Option.some.injEq, Prod.mk.injEq] at h
        obtain ⟨hb, hl⟩ := h
        subst hb
        obtain ⟨c', hc', hcid, hpos, hupd⟩ := ih cs' hrec
        exact ⟨c', by rw [← hl]; exact List.mem_cons_of_mem c hc', hcid, hpos, hupd⟩

/-- `update_component` preserves every component's identity and
behavior. -/
theorem updateComponent_mem (bar : Bar) (cid : ComponentID) :
    ∀ c' ∈ ((bar.updateComponent cid).2).componentsList,
      ∃ c ∈ bar.componentsList, SameBehavior c c' := by
  unfold Bar.updateComponent
  split
  case h_1 b l' heq =>
    intro c' hc'
    simp only [Bar.componentsList, List.mem_append] at hc' ⊢
    rcases hc' with (h | h) | h
    · obtain ⟨c, hc, hs⟩ := updateFirst_mem cid bar.left b l' heq c' h
      exact ⟨c, Or.inl (Or.inl hc), hs⟩
    · exact ⟨c', Or.inl (Or.inr h), sameBehavior_refl c'⟩
    · exact ⟨c', Or.inr h, sameBehavior_refl c'⟩
  case h_2 =>
    split
    case h_1 b cn' heq =>
      intro c' hc'
      simp only [Bar.componentsList, List.mem_append] at hc' ⊢
      rcases hc' with (h | h) | h
      · exact ⟨c', Or.inl (Or.inl h), sameBehavior_refl c'⟩
      · obtain ⟨c, hc, hs⟩ := updateFirst_mem cid bar.center b cn' heq c' h
        exact ⟨c, Or.inl (Or.inr hc), hs⟩
      · exact ⟨c', Or.inr h, sameBehavior_refl c'⟩
    case h_2 =>
      split
      case h_1 b r' heq =>
        intro c' hc'
        simp only [Bar.componentsList, List.mem_append] at hc' ⊢
        rcases hc' with (h | h) | h
        · exact ⟨c', Or.inl (Or.inl h), sameBehavior_refl c'⟩
        · exact ⟨c', Or.inl (Or.inr h), sameBehavior_refl c'⟩
        · obtain ⟨c, hcm, hs⟩ := updateFirst_mem cid bar.right b r' heq c' h
          exact ⟨c, Or.inr hcm, hs⟩
      case h_2 =>
        intro c' hc'
        exact ⟨c', hc', sameBehavior_refl c'⟩

/-- When `update_component` reports true, the resulting bar contains
the freshly updated component with the requested ID whose latest
`update()` call returned true. -/
theorem updateComponent_true (bar : Bar) (cid : ComponentID) (bar' : Bar)
    (h : bar.updateComponent cid = (true, bar')) :
    ∃ c' ∈ bar'.componentsList, c'.id = cid ∧ 0 < c'.updateTicks ∧
      c'.updateFn (c'.updateTicks - 1) = true := by
  unfold Bar.updateComponent at h
  split at h
  case h_1 b l' heq =>
    rw [Prod.mk.injEq] at h
    obtain ⟨hb, hbar⟩ := h
    subst hb
    obtain ⟨c', hc', hrest⟩ := updateFirst_true cid bar.left l' heq
    have hmem : c' ∈ bar'.componentsList := by
      rw [← hbar]
      simp only [Bar.componentsList, List.mem_append]
      exact Or.inl (Or.inl hc')
    exact ⟨c', hmem, hrest⟩
  case h_2 =>
    split at h
    case h_1 b cn' heq =>
      rw [Prod.mk.injEq] at h
      obtain ⟨hb, hbar⟩ := h
      subst hb
      obtain ⟨c', hc', hrest⟩ := updateFirst_true cid bar.center cn' heq
      have hmem : c' ∈ bar'.componentsList := by
        rw [← hbar]
        simp only [Bar.componentsList, List.mem_append]
        exact Or.inl (Or.inr hc')
      exact ⟨c', hmem, hrest⟩
    case h_2 =>
      split at h
      case h_1 b r' heq =>
        rw [Prod.mk.injEq] at h
        obtain ⟨hb, hbar⟩ := h
        subst hb
        obtain ⟨c', hc', hrest⟩ := updateFirst_true cid bar.right r' heq
        have hmem : c' ∈ bar'.componentsList := by
          rw [← hbar]
          simp only [Bar.componentsList, List.mem_append]
          exact Or.inr hc'
        exact ⟨c', hmem, hrest⟩
      case h_2 =>
        rw [Prod.mk.injEq] at h
        exact absurd h.1 (by decide)

/-- `update_component` reports false whenever every component carrying
the requested ID currently reports no change (in particular when no
component carries it). -/
theorem updateComponent_false (bar : Bar) (cid : ComponentID)
    (h : ∀ c ∈ bar.componentsList, c.id = cid → c.updateFn c.updateTicks = false) :
    (bar.updateComponent cid).1 = false := by
  unfold Bar.updateComponent
  split
  case h_1 b l' heq =>
    obtain ⟨c, hc, hcid, hb⟩ := updateFirst_result cid bar.left b l' heq
    have hmem : c ∈ bar.componentsList := by
      simp only [Bar.componentsList, List.mem_append]
      exact Or.inl (Or.inl hc)
    rw [hb]
    exact h c hmem hcid
  case h_2 =>
    split
    case h_1 b cn' heq =>
      obtain ⟨c, hc, hcid, hb⟩ := updateFirst_result cid bar.center b cn' heq
      have hmem : c ∈ bar.componentsList := by
        simp only [Bar.componentsList, List.mem_append]
        exact Or.inl (Or.inr hc)
      rw [hb]
      exact h c hmem hcid
    case h_2 =>
      split
      case h_1 b r' heq =>
        obtain ⟨c, hcm, hcid, hb⟩ := updateFirst_result cid bar.right b r' heq
        have hmem : c ∈ bar.componentsList := by
          simp only [Bar.componentsList, List.mem_append]
          exact Or.inr hcm
        rw [hb]
        exact h c hmem hcid
      case h_2 => rfl

/-- The drain loop preserves every component's identity and behavior. -/
theorem drainLoop_mem (q : List ComponentID) :
    ∀ (bar : Bar), ∀ c' ∈ ((drainLoop bar q).2).componentsList,
      ∃ c ∈ bar.componentsList, SameBehavior c c' := by
  induction q with
  | nil => intro bar c' hc'; exact ⟨c', hc', sameBehavior_refl c'⟩
  | cons c0 rest ih =>
    intro bar c' hc'
    rcases hu : bar.updateComponent c0 with ⟨b, bar1⟩
    have hmem := updateComponent_mem bar c0
    rw [hu] at hmem
    simp only [drainLoop, hu] at hc'
    cases b
    · obtain ⟨cm, hcm, hs⟩ := ih bar1 c' hc'
      obtain ⟨c2, hc2, hs2⟩ := hmem cm hcm
      exact ⟨c2, hc2, sameBehavior_trans hs2 hs⟩
    · exact hmem c' hc'

/-- C1's core invariant: every ID the drain loop delivers belongs to a
component that was updated during the drain, whose latest `update()`
call returned true — so at delivery time the component is dirty by its
own `update()` contract. -/
theorem drainLoop_delivered (q : List ComponentID) :
    ∀ (bar : Bar) (cid : ComponentID) (bar' : Bar),
      drainLoop bar q = (some cid, bar') →
      ∃ c' ∈ bar'.componentsList, c'.id = cid ∧ 0 < c'.updateTicks ∧
        c'.updateFn (c'.updateTicks - 1) = true := by
  induction q with
  | nil => intro bar cid bar' h; simp [drainLoop] at h
  | cons c0 rest ih =>
    intro bar cid bar' h
    rcases hu : bar.updateComponent c0 with ⟨b, bar1⟩
    simp only [drainLoop, hu] at h
    cases b
    · exact ih bar1 cid bar' h
    · rw [Prod.mk.injEq] at h
      obtain ⟨hcid, hbar⟩ := h
      rw [Option.some.injEq] at hcid
      obtain ⟨c', hc', hrest⟩ := updateComponent_true bar c0 bar1 hu
      refine ⟨c', ?_, hcid ▸ hrest.1, hrest.2⟩
      rw [← hbar]
      exact hc'

/-- When no component ever reports a change, the drain loop consumes the
whole queue, returns no ID, and leaves the (started) channel empty. -/
theorem drainLoop_all_clean (q : List ComponentID) :
    ∀ (bar : Bar),
      (∀ c ∈ bar.componentsList, ∀ n, c.updateFn n = false) →
      (drainLoop bar q).1 = none ∧ ((drainLoop bar q).2).events = some [] := by
  induction q with
  | nil => intro bar h; exact ⟨rfl, rfl⟩
  | cons c0 rest ih =>
    intro bar h
    rcases hu : bar.updateComponent c0 with ⟨b, bar1⟩
    have hb : b = false := by
      have h1 := updateComponent_false bar c0 (fun c hc _ => h c hc _)
      rw [hu] at h1
      exact h1
    subst hb
    simp only [drainLoop, hu]
    apply ih
    intro c' hc' n
    have hmem := updateComponent_mem bar c0
    rw [hu] at hmem
    obtain ⟨c, hc, hs⟩ := hmem c' hc'
    rw [hs.2.2.1]
    exact h c hc n

/-- The drain loop never delivers an ID all of whose bearers use the
default (always-false) `update()`. -/
theorem drainLoop_no_default_update (u : ComponentID) (q : List ComponentID) :
    ∀ (bar : Bar),
      (∀ c ∈ bar.componentsList, c.id = u → c.updateFn = defaultUpdate) →
      (drainLoop bar q).1 ≠ some u := by
  induction q with
  | nil => intro bar _; simp [drainLoop]
  | cons c0 rest ih =>
    intro bar h
    rcases hu : bar.updateComponent c0 with ⟨b, bar1⟩
    have hmem := updateComponent_mem bar c0
    rw [hu] at hmem
    have hpres : ∀ c ∈ bar1.componentsList, c.id = u → c.updateFn = defaultUpdate := by
      intro c' hc' hid
      obtain ⟨c, hc, hs⟩ := hmem c' hc'
      rw [hs.2.2.1]
      exact h c hc (by rw [← hs.1]; exact hid)
    cases b
    · simp only [drainLoop, hu]
      exact ih bar1 hpres
    · simp only [drainLoop, hu]
      intro heq
      rw [Option.some.injEq] at heq
      subst heq
      have hfalse := updateComponent_false bar c0
        (fun c hc hid => by rw [h c hc hid]; rfl)
      rw [hu] at hfalse
      simp at hfalse

/-! ## C1: delivered IDs correspond to a true update -/

/-- C1: with the update pipeline started, every component ID returned by
`recv()` or `try_recv()` belongs to a component on which the call
invoked `update()` — strictly before returning the ID — and whose latest
`update()` call returned true, so the component is dirty by its own
`update()` contract at delivery time. -/
theorem poll_delivers_only_dirty_components (bar : Bar) (q start : List ComponentID)
    (hstarted : bar.events = some q) :
    (∀ cid bar', bar.tryRecv start = (some cid, bar') →
      ∃ c' ∈ bar'.componentsList, c'.id = cid ∧ 0 < c'.updateTicks ∧
        c'.updateFn (c'.updateTicks - 1) = true) ∧
    (∀ cid bar', bar.recv start = some (cid, bar') →
      ∃ c' ∈ bar'.componentsList, c'.id = cid ∧ 0 < c'.updateTicks ∧
        c'.updateFn (c'.updateTicks - 1) = true) := by
  have hq : bar.startQueue start = q := by
    simp [Bar.startQueue, hstarted]
  constructor
  · intro cid bar' h
    refine drainLoop_delivered q bar cid bar' ?_
    rw [← hq]
    exact h
  · intro cid bar' h
    unfold Bar.recv at h
    rcases ht : bar.tryRecv start with ⟨r, bar1⟩
    rw [ht] at h
    cases r with
    | none => exact Option.noConfusion h
    | some c1 =>
      simp only [Option.some.injEq, Prod.mk.injEq] at h
      obtain ⟨hcid, hbar⟩ := h
      refine drainLoop_delivered q bar cid bar' ?_
      rw [← hq, ← hcid, ← hbar]
      exact ht

/-- A clock component as produced by `Clock::create`: `update()` always
returns true. -/
def clockCompW : Component :=
  { id := ⟨0⟩, settings := ComponentSettings.empty, updateFn := fun _ => true,
    notifyFn := defaultNotify, updateTicks := 0, notifyTicks := 0 }

/-- An `Undynamic` component as produced by `Undynamic::create`:
`update()` and `notify()` are the always-false trait defaults. -/
def undynCompW : Component :=
  { id := ⟨1⟩, settings := ComponentSettings.empty, updateFn := defaultUpdate,
    notifyFn := defaultNotify, updateTicks := 0, notifyTicks := 0 }

/-- Concrete general settings for the witness bars. -/
def generalW : General :=
  { height := 30, position := Position.bottom,
    background := Background.color ⟨0, 0, 0, 255⟩, border := none,
    monitors := [⟨"DVI-1", []⟩] }

/-- A bar with a started pipeline whose channel holds the clock's ID. -/
def barPollW : Bar :=
  { general := generalW, left := [clockCompW], center := [], right := [],
    events := some [⟨0⟩] }

/-- Witness for C1 at a concrete bar: `try_recv` delivers the clock's ID
and the delivered component's latest `update()` call returned true. -/
theorem poll_delivers_only_dirty_components_witness :
    ∃ c' ∈ ((barPollW.tryRecv []).2).componentsList, c'.id = ⟨0⟩ ∧
      0 < c'.updateTicks ∧ c'.updateFn (c'.updateTicks - 1) = true :=
  (poll_delivers_only_dirty_components barPollW [⟨0⟩] [] rfl).1 ⟨0⟩
    ((barPollW.tryRecv []).2) rfl

/-! ## C9: try_recv before the pipeline starts -/

/-- C9: on a bar whose pipeline has not been started and none of whose
components ever reports a change, `try_recv()` starts the pipeline
(the channel afterwards exists, and is empty) and returns the explicit
empty result `none` — and, being a total function of the queued IDs, it
never blocks. -/
theorem try_recv_before_start_returns_empty (bar : Bar) (start : List ComponentID)
    (hunstarted : bar.events = none)
    (hnever : ∀ c ∈ bar.componentsList, ∀ n, c.updateFn n = false) :
    (bar.tryRecv start).1 = none ∧ ((bar.tryRecv start).2).events = some [] := by
  have hq : bar.startQueue start = start := by
    simp [Bar.startQueue, hunstarted]
  unfold Bar.tryRecv
  rw [hq]
  exact drainLoop_all_clean start bar hnever

/-- A freshly loaded bar: one `Undynamic` component, no channel yet. -/
def barFreshW : Bar :=
  { general := generalW, left := [undynCompW], center := [], right := [],
    events := none }

/-! ## C8: Undynamic components are never delivered -/

/-- The notify fan-out preserves every component's identity and
behavior. -/
theorem notify_mem (bar : Bar) (e : Event) :
    ∀ c' ∈ (bar.notify e).componentsList, ∃ c ∈ bar.componentsList, SameBehavior c c' := by
  have hmap : ∀ (l : List Component), ∀ c' ∈ (notifyList e l).1,
      ∃ c ∈ l, SameBehavior c c' := by
    intro l c' hm
    rw [notifyList_fst] at hm
    obtain ⟨c, hc, hceq⟩ := List.mem_map.mp hm
    exact ⟨c, hc, by rw [← hceq]; exact ⟨rfl, rfl, rfl, rfl⟩⟩
  intro c' hc'
  simp only [Bar.notify, Bar.componentsList, List.mem_append] at hc' ⊢
  rcases hc' with (h | h) | h
  · obtain ⟨c, hc, hs⟩ := hmap bar.left c' h
    exact ⟨c, Or.inl (Or.inl hc), hs⟩
  · obtain ⟨c, hc, hs⟩ := hmap bar.center c' h
    exact ⟨c, Or.inl (Or.inr hc), hs⟩
  · obtain ⟨c, hc, hs⟩ := hmap bar.right c' h
    exact ⟨c, Or.inr hc, hs⟩

/-- Every execution step preserves every component's identity and
behavior. -/
theorem step_mem (bar : Bar) (a : Action) :
    ∀ c' ∈ ((bar.step a).1).componentsList, ∃ c ∈ bar.componentsList, SameBehavior c c' := by
  cases a with
  | doRecv start => exact fun c' hc' => drainLoop_mem (bar.startQueue start) bar c' hc'
  | doTryRecv start => exact fun c' hc' => drainLoop_mem (bar.startQueue start) bar c' hc'
  | doNotify e => exact notify_mem bar e
  | workerPush cid =>
    intro c' hc'
    refine ⟨c', ?_, sameBehavior_refl c'⟩
    simp only [Bar.step] at hc'
    cases hebar : bar.events with
    | some q => rw [hebar] at hc'; exact hc'
    | none => rw [hebar] at hc'; exact hc'

/-- No execution step delivers an ID all of whose bearers use the
default (always-false) `update()`: polls filter it out and the other
actions deliver nothing. -/
theorem step_output (bar : Bar) (u : ComponentID) (a : Action)
    (hall : ∀ c ∈ bar.componentsList, c.id = u → c.updateFn = defaultUpdate) :
    (bar.step a).2 ≠ some u := by
  cases a with
  | doRecv start => exact drainLoop_no_default_update u (bar.startQueue start) bar hall
  | doTryRecv start => exact drainLoop_no_default_update u (bar.startQueue start) bar hall
  | doNotify e => exact fun h => Option.noConfusion h
  | workerPush cid => exact fun h => Option.noConfusion h

/-- Across a whole execution, an ID all of whose bearers use the default
`update()` is never delivered. -/
theorem run_no_default_update (u : ComponentID) (acts : List Action) :
    ∀ (bar : Bar),
      (∀ c ∈ bar.componentsList, c.id = u → c.updateFn = defaultUpdate) →
      u ∉ (bar.run acts).2 := by
  induction acts with
  | nil => intro bar _; simp [Bar.run]
  | cons a rest ih =>
    intro bar hall
    have hpres : ∀ c ∈ ((bar.step a).1).componentsList, c.id = u →
        c.updateFn = defaultUpdate := by
      intro c' hc' hid
      obtain ⟨c, hc, hs⟩ := step_mem bar a c' hc'
      rw [hs.2.2.1]
      exact hall c hc (by rw [← hs.1]; exact hid)
    have hout := step_output bar u a hall
    simp only [Bar.run]
    cases hs2 : (bar.step a).2 with
    | none => exact ih ((bar.step a).1) hpres
    | some cid =>
      intro hmem
      rcases List.mem_cons.mp hmem with heq | hmem2
      · exact hout (by rw [hs2, heq])
      · exact ih ((bar.step a).1) hpres hmem2

/-- C8: in every execution interleaving `recv()`/`try_recv()` with
`notify(event)` calls (and adversarial worker deliveries), the ID of a
default-behavior `Undynamic` component — trigger stream never fires,
`update()` always false, `notify()` always false — is never returned by
a poll, and the notify path never even collects it as dirty.  The
hypothesis `hids` is the documented ID invariant: two components never
share an ID. -/
theorem undynamic_component_never_delivered (bar : Bar) (u : ComponentID)
    (acts : List Action) (c : Component)
    (hmem : c ∈ bar.componentsList) (hid : c.id = u)
    (hupd : c.updateFn = defaultUpdate) (hntf : c.notifyFn = defaultNotify)
    (hids : ∀ c1 ∈ bar.componentsList, ∀ c2 ∈ bar.componentsList,
      c1.id = c2.id → c1 = c2) :
    u ∉ (bar.run acts).2 ∧ ∀ e, u ∉ dirtyIDs bar e := by
  constructor
  · refine run_no_default_update u acts bar ?_
    intro c' hc' hid'
    have hceq : c' = c := hids c' hc' c hmem (by rw [hid', hid])
    rw [hceq, hupd]
  · intro e hdirty
    simp only [dirtyIDs, List.mem_map] at hdirty
    obtain ⟨c', hc', hcid⟩ := hdirty
    obtain ⟨hcmem, hfn⟩ := List.mem_filter.mp hc'
    have hceq : c' = c := hids c' hcmem c hmem (by rw [hcid, hid])
    rw [hceq, hntf] at hfn
    simp [defaultNotify] at hfn

/-- A bar holding a clock and a default `Undynamic` component, pipeline
not yet started. -/
def barMixedW : Bar :=
  { general := generalW, left := [clockCompW], center := [],
    right := [undynCompW], events := none }

/-- A sample execution: a first `try_recv` on a queue spuriously holding
the Undynamic ID, a notify, an adversarial worker push of the Undynamic
ID, and a blocking `recv`. -/
def actsMixedW : List Action :=
  [Action.doTryRecv [⟨1⟩, ⟨0⟩],
   Action.doNotify (Event.mouseMotion ⟨0, 0⟩),
   Action.workerPush ⟨1⟩,
   Action.doRecv []]

/-- Witness for C8 at a concrete bar and execution. -/
theorem undynamic_component_never_delivered_witness :
    (⟨1⟩ : ComponentID) ∉ (barMixedW.run actsMixedW).2 ∧
      ∀ e, (⟨1⟩ : ComponentID) ∉ dirtyIDs barMixedW e :=
  undynamic_component_never_delivered barMixedW ⟨1⟩ actsMixedW undynCompW
    (by simp [barMixedW, Bar.componentsList, undynCompW])
    rfl rfl rfl
    (by
      intro c1 h1 c2 h2 h12
      simp only [barMixedW, Bar.componentsList, List.append_nil, List.cons_append,
        List.nil_append, List.mem_cons, List.mem_singleton] at h1 h2
      rcases h1 with h1 | h1 <;> rcases h2 with h2 | h2 <;>
        simp_all [clockCompW, undynCompW])

/-- Witness for C9: even with a (spuriously) non-empty startup queue the
first `try_recv` returns `none` and leaves a started, empty channel. -/
theorem try_recv_before_start_returns_empty_witness :
    (barFreshW.tryRecv [⟨1⟩, ⟨1⟩]).1 = none ∧
      ((barFreshW.tryRecv [⟨1⟩, ⟨1⟩]).2).events = some [] :=
  try_recv_before_start_returns_empty barFreshW [⟨1⟩, ⟨1⟩] rfl
    (by
      intro c hc n
      simp only [barFreshW, Bar.componentsList, List.append_nil,
        List.mem_singleton] at hc
      rw [hc]
      rfl)

/-! ## C4: monitor validation at load -/

/-- Component creation succeeds exactly when the entry's variant-specific
extra fields are well-typed. -/
theorem fromConfig_isSome (cid : ComponentID) (c : ConfigComponent) :
    (Component.fromConfig cid c).isSome = c.extraValid := by
  by_cases h : c.name = "clock"
  · simp only [Component.fromConfig, if_pos h, ConfigComponent.extraValid,
      Clock.create, clockParseExtra]
    cases hi : c.extra.interval with
    | none => rfl
    | some v => cases v <;> rfl
  · simp only [Component.fromConfig, if_neg h, ConfigComponent.extraValid,
      Undynamic.create, undynamicParseExtra]
    cases ht : c.extra.text with
    | none => rfl
    | some v => cases v <;> rfl

/-- The component conversion of `Bar::load` succeeds exactly when every
entry's extra fields are well-typed. -/
theorem convertComponents_isSome (d : ComponentSettings) (l : List ConfigComponent) :
    ∀ n, (convertComponents d l n).isSome = l.all ConfigComponent.extraValid := by
  induction l with
  | nil => intro n; rfl
  | cons c cs ih =>
    intro n
    simp only [convertComponents, List.all_cons]
    cases hf : Component.fromConfig ⟨n⟩ { c with settings := c.settings.fallback d } with
    | none =>
      have heval : (false : Bool) = c.extraValid := by
        have h0 := fromConfig_isSome ⟨n⟩ { c with settings := c.settings.fallback d }
        rw [hf] at h0
        exact h0
      rw [← heval]
      rfl
    | some comp =>
      have heval : (true : Bool) = c.extraValid := by
        have h0 := fromConfig_isSome ⟨n⟩ { c with settings := c.settings.fallback d }
        rw [hf] at h0
        exact h0
      rw [← heval]
      simp [ih]

/-- C4: a configuration with an empty monitor list makes `Bar::load`
fail with the documented invalid-data error; an otherwise-valid
configuration (well-typed variant extras) with at least one monitor
loads successfully, with the monitors carried over and the pipeline not
yet started. -/
theorem load_requires_nonempty_monitors (nextId : Nat) (doc : Config) :
    (doc.monitors = [] →
      Bar.load nextId doc = some (Except.error "at least one monitor is required")) ∧
    (doc.monitors ≠ [] →
      (∀ c ∈ doc.left ++ doc.center ++ doc.right, c.extraValid = true) →
      ∃ bar, Bar.load nextId doc = some (Except.ok bar) ∧
        bar.general.monitors = doc.monitors ∧ bar.events = none) := by
  constructor
  · intro hempty
    unfold Bar.load deserializeMonitors
    rw [hempty]
    rfl
  · intro hne hvalid
    have hvalidIn : ∀ (sel : List ConfigComponent), sel = doc.left ∨ sel = doc.center ∨
        sel = doc.right → ∀ n, (convertComponents doc.defaults sel n).isSome = true := by
      intro sel hsel n
      rw [convertComponents_isSome]
      rw [List.all_eq_true]
      intro c hc
      refine hvalid c ?_
      simp only [List.mem_append]
      rcases hsel with h | h | h
      · exact Or.inl (Or.inl (h ▸ hc))
      · exact Or.inl (Or.inr (h ▸ hc))
      · exact Or.inr (h ▸ hc)
    obtain ⟨pl, hpl⟩ := Option.isSome_iff_exists.mp
      (hvalidIn doc.left (Or.inl rfl) nextId)
    obtain ⟨lcomps, n1⟩ := pl
    obtain ⟨pc, hpc⟩ := Option.isSome_iff_exists.mp
      (hvalidIn doc.center (Or.inr (Or.inl rfl)) n1)
    obtain ⟨ccomps, n2⟩ := pc
    obtain ⟨pr, hpr⟩ := Option.isSome_iff_exists.mp
      (hvalidIn doc.right (Or.inr (Or.inr rfl)) n2)
    obtain ⟨rcomps, n3⟩ := pr
    rcases hm : doc.monitors with - | ⟨m, ms⟩
    · exact absurd hm hne
    · refine ⟨Bar.mk (General.mk doc.height doc.position doc.background doc.border
        (m :: ms)) lcomps ccomps rcomps none, ?_, rfl, rfl⟩
      unfold Bar.load deserializeMonitors
      rw [hm, hpl]
      simp only [Option.some_bind]
      rw [hpc]
      simp only [Option.some_bind]
      rw [hpr]
      simp only [Option.some_bind]
      rfl

/-- A minimal valid document: one monitor, no components. -/
def minimalDocW : Config :=
  { height := 30, position := Position.bottom,
    background := Background.color ⟨0, 0, 0, 255⟩, border := none,
    monitors := [⟨"DVI-1", []⟩], defaults := ComponentSettings.empty,
    left := [], center := [], right := [] }

/-- The same document with its monitor list emptied. -/
def emptyMonitorsDocW : Config :=
  { minimalDocW with monitors := [] }

/-- Witness for C4: the empty-monitors document fails with the
documented error and the one-monitor document loads. -/
theorem load_requires_nonempty_monitors_witness :
    Bar.load 0 emptyMonitorsDocW = some (Except.error "at least one monitor is required") ∧
      ∃ bar, Bar.load 0 minimalDocW = some (Except.ok bar) ∧
        bar.general.monitors = minimalDocW.monitors ∧ bar.events = none :=
  ⟨(load_requires_nonempty_monitors 0 emptyMonitorsDocW).1 rfl,
    (load_requires_nonempty_monitors 0 minimalDocW).2 (by simp [minimalDocW])
      (by intro c hc; simp [minimalDocW] at hc)⟩

/-! ## C5: the settings fallback at load time -/

/-- One per-field step of the merge obeys the claims' scalar-field
contract. -/
theorem orDefault_scalarMerged {α : Type} (a b : Option α) :
    ScalarMerged (orDefault a b) a b := by
  constructor
  · intro v hv
    rw [hv]
    rfl
  · intro hv
    rw [hv]
    rfl

/-- The fallback merge satisfies the claims' merged-settings contract:
present scalar fields win, absent ones take the default, fonts
concatenate with both orders preserved. -/
theorem fallback_mergedFrom (own d : ComponentSettings) :
    MergedFrom (own.fallback d) own d :=
  ⟨orDefault_scalarMerged own.foreground d.foreground,
    orDefault_scalarMerged own.background d.background,
    orDefault_scalarMerged own.width d.width,
    orDefault_scalarMerged own.padding d.padding,
    orDefault_scalarMerged own.offsetX d.offsetX,
    orDefault_scalarMerged own.offsetY d.offsetY,
    orDefault_scalarMerged own.border d.border, rfl⟩

/-- A created component stores exactly the settings it was given. -/
theorem fromConfig_settings (cid : ComponentID) (c : ConfigComponent) (comp : Component)
    (h : Component.fromConfig cid c = some comp) : comp.settings = c.settings := by
  unfold Component.fromConfig Clock.create Undynamic.create at h
  by_cases hn : c.name = "clock"
  · rw [if_pos hn] at h
    cases hp : clockParseExtra c.extra with
    | none => rw [hp] at h; exact Option.noConfusion h
    | some v =>
      rw [hp] at h
      simp only [Option.map_some', Option.some.injEq] at h
      rw [← h]
  · rw [if_neg hn] at h
    cases hp : undynamicParseExtra c.extra with
    | none => rw [hp] at h; exact Option.noConfusion h
    | some v =>
      rw [hp] at h
      simp only [Option.map_some', Option.some.injEq] at h
      rw [← h]

/-- The conversion of `Bar::load` preserves list length and stores, for
the i-th entry, the i-th entry's own settings merged with the
defaults. -/
theorem convertComponents_settings (d : ComponentSettings) (l : List ConfigComponent) :
    ∀ n comps n', convertComponents d l n = some (comps, n') →
      comps.length = l.length ∧
      ∀ i (hi : i < comps.length) (hl : i < l.length),
        (comps.get ⟨i, hi⟩).settings = ((l.get ⟨i, hl⟩).settings).fallback d := by
  induction l with
  | nil =>
    intro n comps n' h
    simp only [convertComponents, Option.some.injEq, Prod.mk.injEq] at h
    refine ⟨by rw [← h.1]; rfl, ?_⟩
    intro i hi hl
    exact absurd hl (by simp)
  | cons c cs ih =>
    intro n comps n' h
    simp only [convertComponents] at h
    cases hf : Component.fromConfig ⟨n⟩ { c with settings := c.settings.fallback d } with
    | none => rw [hf] at h; exact Option.noConfusion h
    | some comp =>
      rw [hf] at h
      cases hrec : convertComponents d cs (n + 1) with
      | none => rw [hrec] at h; exact Option.noConfusion h
      | some p =>
        obtain ⟨rest, nfin⟩ := p
        rw [hrec] at h
        simp only [Option.map_some', Option.some.injEq, Prod.mk.injEq] at h
        obtain ⟨hcomps, hn'⟩ := h
        subst hcomps
        obtain ⟨hlen, hget⟩ := ih (n + 1) rest nfin hrec
        constructor
        · simp [hlen]
        · intro i hi hl
          rcases i with - | j
          · exact fromConfig_settings ⟨n⟩
              { c with settings := c.settings.fallback d } comp hf
          · exact hget j (by simpa using hi) (by simpa using hl)

/-- C5: in every successfully loaded bar, each component's effective
settings satisfy the merged-settings contract against its own entry's
settings and the bar-wide defaults: explicitly set scalar fields keep
the component's value, absent ones receive the default, and the
effective font list is the component's fonts followed by the default
fonts, orders preserved. -/
theorem load_applies_settings_fallback (nextId : Nat) (doc : Config) (bar : Bar)
    (h : Bar.load nextId doc = some (Except.ok bar)) :
    (bar.left.length = doc.left.length ∧
      ∀ i (hi : i < bar.left.length) (hl : i < doc.left.length),
        MergedFrom ((bar.left.get ⟨i, hi⟩).settings)
          ((doc.left.get ⟨i, hl⟩).settings) doc.defaults) ∧
    (bar.center.length = doc.center.length ∧
      ∀ i (hi : i < bar.center.length) (hl : i < doc.center.length),
        MergedFrom ((bar.center.get ⟨i, hi⟩).settings)
          ((doc.center.get ⟨i, hl⟩).settings) doc.defaults) ∧
    (bar.right.length = doc.right.length ∧
      ∀ i (hi : i < bar.right.length) (hl : i < doc.right.length),
        MergedFrom ((bar.right.get ⟨i, hi⟩).settings)
          ((doc.right.get ⟨i, hl⟩).settings) doc.defaults) := by
  unfold Bar.load at h
  split at h
  next e heqm => simp at h
  next ms heqm =>
    cases hcl : convertComponents doc.defaults doc.left nextId with
    | none => rw [hcl] at h; exact Option.noConfusion h
    | some pl =>
      obtain ⟨lcomps, n1⟩ := pl
      rw [hcl] at h
      simp only [Option.some_bind] at h
      cases hcc : convertComponents doc.defaults doc.center n1 with
      | none => rw [hcc] at h; exact Option.noConfusion h
      | some pc =>
        obtain ⟨ccomps, n2⟩ := pc
        rw [hcc] at h
        simp only [Option.some_bind] at h
        cases hcr : convertComponents doc.defaults doc.right n2 with
        | none => rw [hcr] at h; exact Option.noConfusion h
        | some pr =>
          obtain ⟨rcomps, n3⟩ := pr
          rw [hcr] at h
          simp only [Option.some_bind, Option.some.injEq, Except.ok.injEq] at h
          obtain ⟨hllen, hlget⟩ := convertComponents_settings doc.defaults doc.left
            nextId lcomps n1 hcl
          obtain ⟨hclen, hcget⟩ := convertComponents_settings doc.defaults doc.center
            n1 ccomps n2 hcc
          obtain ⟨hrlen, hrget⟩ := convertComponents_settings doc.defaults doc.right
            n2 rcomps n3 hcr
          rw [← h]
          refine ⟨⟨hllen, ?_⟩, ⟨hclen, ?_⟩, ⟨hrlen, ?_⟩⟩
          · intro i hi hl
            rw [hlget i hi hl]
            exact fallback_mergedFrom _ _
          · intro i hi hl
            rw [hcget i hi hl]
            exact fallback_mergedFrom _ _
          · intro i hi hl
            rw [hrget i hi hl]
            exact fallback_mergedFrom _ _

/-- The document of the `component_fallbacks` test: bar-wide defaults
with a width and a font, one component with only its own font. -/
def fallbackDocW : Config :=
  { height := 30, position := Position.bottom,
    background := Background.color ⟨0, 0, 0, 255⟩, border := none,
    monitors := [⟨"DVI-1", []⟩], defaults := defaultsWithFont,
    left := [{ name := "", settings := settingsOwnFont, extra := RawExtra.empty }],
    center := [], right := [] }

/-- The effective settings of that component after the merge: default
width adopted, own font first, default font second. -/
def mergedSettingsW : ComponentSettings :=
  { foreground := none, background := none, width := some 100, padding := none,
    offsetX := none, offsetY := none, fonts := [⟨"primary", 9⟩, ⟨"font", 3⟩],
    border := none }

/-- The single component of the bar loaded from `fallbackDocW`. -/
def fallbackCompW : Component :=
  { id := ⟨0⟩, settings := mergedSettingsW, updateFn := defaultUpdate,
    notifyFn := defaultNotify, updateTicks := 0, notifyTicks := 0 }

/-- The bar loaded from `fallbackDocW`. -/
def barFallbackW : Bar :=
  { general := generalW, left := [fallbackCompW], center := [], right := [],
    events := none }

/-- Witness for C5 at the test document: the loaded component's settings
satisfy the merged-settings contract. -/
theorem load_applies_settings_fallback_witness :
    MergedFrom ((barFallbackW.left.get ⟨0, by simp [barFallbackW]⟩).settings)
      ((fallbackDocW.left.get ⟨0, by simp [fallbackDocW]⟩).settings)
      fallbackDocW.defaults :=
  ((load_applies_settings_fallback 0 fallbackDocW barFallbackW rfl).1).2 0
    (by simp [barFallbackW]) (by simp [fallbackDocW])

/-! ## C10: Color serialize/parse round trip -/

/-- Per-byte facts about the `{:02x}` encoding, checked by evaluation
over all 256 byte values: it is two bytes of UTF-8, every character is a
lowercase hex digit accepted both by the claims' hex-digit notion and by
the code's uppercased-truncated validation, and `from_str_radix` parses
it back to the byte. -/
theorem byteToHex_facts : ∀ x : Fin 256,
    utf8Len (byteToHex x.val) = 2 ∧
    ((byteToHex x.val).all fun ch => rustUtf8Size ch == 1) = true ∧
    ((byteToHex x.val).all fun ch => hexCodeOk (Char.toUpper ch)) = true ∧
    ((byteToHex x.val).all isLowerHexDigit) = true ∧
    u8FromStrRadix16 (byteToHex x.val) = some x := by decide

/-- Every character of a `{:02x}` encoding is a single UTF-8 byte. -/
theorem byteToHex_sizes {v : Nat} (hv : v < 256) :
    ∀ ch ∈ byteToHex v, rustUtf8Size ch = 1 := by
  intro ch hch
  have h := (byteToHex_facts ⟨v, hv⟩).2.1
  rw [List.all_eq_true] at h
  have := h ch hch
  simpa using this

theorem utf8Len_cons (ch : Char) (t : List Char) :
    utf8Len (ch :: t) = rustUtf8Size ch + utf8Len t := by
  simp [utf8Len]

theorem utf8Len_append (x y : List Char) :
    utf8Len (x ++ y) = utf8Len x + utf8Len y := by
  simp [utf8Len]

theorem dropBytes_zero (s : List Char) : dropBytes s 0 = some s := by
  cases s <;> rfl

theorem takeBytes_zero (s : List Char) : takeBytes s 0 = some [] := by
  cases s <;> rfl

theorem dropBytes_ascii_cons (ch : Char) (cs : List Char) (n : Nat)
    (hc : rustUtf8Size ch = 1) : dropBytes (ch :: cs) (n + 1) = dropBytes cs n := by
  simp [dropBytes, hc]

theorem takeBytes_ascii_cons (ch : Char) (cs : List Char) (n : Nat)
    (hc : rustUtf8Size ch = 1) :
    takeBytes (ch :: cs) (n + 1) = (takeBytes cs n).map (ch :: ·) := by
  simp [takeBytes, hc]

/-- Dropping past a single-byte prefix skips exactly its characters. -/
theorem dropBytes_ascii_append (xs : List Char) :
    (∀ ch ∈ xs, rustUtf8Size ch = 1) →
    ∀ (ys : List Char) (k : Nat), dropBytes (xs ++ ys) (xs.length + k) = dropBytes ys k := by
  induction xs with
  | nil => intro _ ys k; simp
  | cons ch cs ih =>
    intro hx ys k
    have hc : rustUtf8Size ch = 1 := hx ch (List.mem_cons_self _ _)
    have hcs : ∀ ch' ∈ cs, rustUtf8Size ch' = 1 :=
      fun ch' h => hx ch' (List.mem_cons_of_mem _ h)
    simp only [List.cons_append, List.length_cons]
    rw [show cs.length + 1 + k = cs.length + k + 1 by omega]
    rw [dropBytes_ascii_cons ch _ _ hc]
    exact ih hcs ys k

/-- Taking a single-byte prefix returns exactly its characters. -/
theorem takeBytes_ascii_append (xs : List Char) :
    (∀ ch ∈ xs, rustUtf8Size ch = 1) →
    ∀ (ys : List Char), takeBytes (xs ++ ys) xs.length = some xs := by
  induction xs with
  | nil => intro _ ys; simp [takeBytes_zero]
  | cons ch cs ih =>
    intro hx ys
    have hc : rustUtf8Size ch = 1 := hx ch (List.mem_cons_self _ _)
    have hcs : ∀ ch' ∈ cs, rustUtf8Size ch' = 1 :=
      fun ch' h => hx ch' (List.mem_cons_of_mem _ h)
    simp only [List.cons_append, List.length_cons]
    rw [takeBytes_ascii_cons ch _ _ hc, ih hcs ys]
    rfl

/-- A byte slice of an all-single-byte string at character boundaries is
the middle segment. -/
theorem sliceBytes_mid (pre mid post : List Char)
    (hpre : ∀ ch ∈ pre, rustUtf8Size ch = 1)
    (hmid : ∀ ch ∈ mid, rustUtf8Size ch = 1) :
    sliceBytes (pre ++ (mid ++ post)) pre.length (pre.length + mid.length) =
      some mid := by
  unfold sliceBytes
  rw [show pre.length = pre.length + 0 by omega]
  rw [dropBytes_ascii_append pre hpre (mid ++ post) 0]
  rw [dropBytes_zero]
  simp only [Option.some_bind]
  rw [show pre.length + 0 + mid.length - (pre.length + 0) = mid.length by omega]
  exact takeBytes_ascii_append mid hmid post

/-- C10: serializing any Color with `to_string` yields a 9-character
lowercase `#rrggbbaa` string, and `from_str` parses that string back to
exactly the same color — the serialize-then-parse round trip is the
identity. -/
theorem color_to_string_round_trip (c : Color) :
    Color.fromStr (Color.toString c) = some (Except.ok c) ∧
    (Color.toString c).length = 9 ∧
    (Color.toString c).head? = some '#' ∧
    ((Color.toString c).drop 1).all isLowerHexDigit = true := by
  obtain ⟨r, g, b, a⟩ := c
  have hr := byteToHex_facts r
  have hg := byteToHex_facts g
  have hb := byteToHex_facts b
  have ha := byteToHex_facts a
  have hrs := byteToHex_sizes r.isLt
  have hgs := byteToHex_sizes g.isLt
  have hbs := byteToHex_sizes b.isLt
  have has := byteToHex_sizes a.isLt
  have hhash : rustUtf8Size '#' = 1 := rfl
  have hts : Color.toString ⟨r, g, b, a⟩ =
      '#' :: (byteToHex r.val ++ byteToHex g.val ++ byteToHex b.val ++ byteToHex a.val) :=
    rfl
  rw [hts]
  have hlen9 : utf8Len ('#' :: (byteToHex r.val ++ byteToHex g.val ++ byteToHex b.val ++
      byteToHex a.val)) = 9 := by
    simp [utf8Len_cons, utf8Len_append, hr.1, hg.1, hb.1, ha.1, hhash]
  have hs13 : sliceBytes ('#' :: (byteToHex r.val ++ byteToHex g.val ++ byteToHex b.val ++
      byteToHex a.val)) 1 3 = some (byteToHex r.val) := by
    have := sliceBytes_mid ['#'] (byteToHex r.val)
      (byteToHex g.val ++ (byteToHex b.val ++ byteToHex a.val))
      (by intro ch hch; simp at hch; rw [hch]; rfl) hrs
    simpa [List.append_assoc] using this
  have hs35 : sliceBytes ('#' :: (byteToHex r.val ++ byteToHex g.val ++ byteToHex b.val ++
      byteToHex a.val)) 3 5 = some (byteToHex g.val) := by
    have := sliceBytes_mid ('#' :: byteToHex r.val) (byteToHex g.val)
      (byteToHex b.val ++ byteToHex a.val)
      (by
        intro ch hch
        rcases List.mem_cons.mp hch with h | h
        · rw [h]; rfl
        · exact hrs ch h) hgs
    simpa [List.append_assoc] using this
  have hs57 : sliceBytes ('#' :: (byteToHex r.val ++ byteToHex g.val ++ byteToHex b.val ++
      byteToHex a.val)) 5 7 = some (byteToHex b.val) := by
    have := sliceBytes_mid ('#' :: (byteToHex r.val ++ byteToHex g.val)) (byteToHex b.val)
      (byteToHex a.val)
      (by
        intro ch hch
        rcases List.mem_cons.mp hch with h | h
        · rw [h]; rfl
        · rcases List.mem_append.mp h with h2 | h2
          · exact hrs ch h2
          · exact hgs ch h2) hbs
    simpa [List.append_assoc] using this
  have hs79 : sliceBytes ('#' :: (byteToHex r.val ++ byteToHex g.val ++ byteToHex b.val ++
      byteToHex a.val)) 7 9 = some (byteToHex a.val) := by
    have := sliceBytes_mid ('#' :: (byteToHex r.val ++ byteToHex g.val ++ byteToHex b.val))
      (byteToHex a.val) []
      (by
        intro ch hch
        rcases List.mem_cons.mp hch with h | h
        · rw [h]; rfl
        · rcases List.mem_append.mp h with h2 | h2
          · rcases List.mem_append.mp h2 with h3 | h3
            · exact hrs ch h3
            · exact hgs ch h3
          · exact hbs ch h2) has
    simpa [List.append_assoc] using this
  have hvalid : ((('#' :: (byteToHex r.val ++ byteToHex g.val ++ byteToHex b.val ++
      byteToHex a.val)).map Char.toUpper).drop 1).all hexCodeOk = true := by
    simp only [List.map_cons, List.drop_succ_cons, List.drop_zero, List.map_append,
      List.all_append, List.all_map, Bool.and_eq_true]
    refine ⟨⟨⟨?_, ?_⟩, ?_⟩, ?_⟩
    · simpa [Function.comp] using hr.2.2.1
    · simpa [Function.comp] using hg.2.2.1
    · simpa [Function.comp] using hb.2.2.1
    · simpa [Function.comp] using ha.2.2.1
  refine ⟨?_, rfl, rfl, ?_⟩
  · unfold Color.fromStr
    rw [if_neg (by simp [utf8Len_cons, utf8Len_append, hr.1, hg.1, hb.1, ha.1, hhash])]
    rw [if_neg (by
      simp only [not_not]
      exact hvalid)]
    simp only [hs13, hs35, hs57, hs79, Option.some_bind, hlen9,
      hr.2.2.2.2, hg.2.2.2.2, hb.2.2.2.2, ha.2.2.2.2]
    simp
  · simp only [List.drop_succ_cons, List.drop_zero, List.all_append, Bool.and_eq_true]
    exact ⟨⟨⟨hr.2.2.2.1, hg.2.2.2.1⟩, hb.2.2.2.1⟩, ha.2.2.2.1⟩

end BarConfig
